import Mathlib

/-!
# Fauxtoshop: a shallow embedding of the pixel-grid filters

The development embeds the three grid filters of `fauxtoshop.cpp`
(`applyScatter`, `applyEdgeDetection`, `applyGreenScreen`) and their shared
helper `getColorDifference`.

* C++ `int` values are `Int`.  Pixel channels lie in `[0, 255]`, loop indices
  below the grid dimensions, and a placement is added to a sticker dimension
  only when it is at most a loop index; so the arithmetic of the filters
  stays within 32 bits whenever the dimensions of the grids involved, added
  to each other or to the largest radius 100, do.
* `Grid<int>` is a record of its two dimensions and its rows; element access
  is fallible (`none` is the library's out-of-range error).
* A filter's result is an `Option Grid`: `none` means that an access left the
  grid or, for scatter, that the rejection loop was still running when its
  fuel ran out.
* The interactive prompts (radius, threshold, tolerance, sticker, placement)
  are the filters' parameters here.
-/

namespace Fauxtoshop

/-! ## Colours -/

/-- The constant `WHITE` of the source. -/
def WHITE : Int := 0xFFFFFF

/-- The constant `BLACK` of the source. -/
def BLACK : Int := 0x000000

/-- The constant `GREEN` of the source. -/
def GREEN : Int := 0x00FF00

/-- Modelled from the spec: `GBufferedImage::getRedGreenBlue` belongs to the
image library, which is not part of the sources.  The spec describes a colour
as a packed value with 8 bits of red, 8 bits of green and 8 bits of blue (red
in the high byte: White is `0xFFFFFF`, Green is `0x00FF00`), extracted
bit-exactly.  Floor division and the non-negative remainder are that
extraction on a two's complement `int`. -/
def getRedGreenBlue (rgb : Int) : Int × Int × Int :=
  (rgb / 65536 % 256, rgb / 256 % 256, rgb % 256)

/-- The function `getColorDifference` of the source: the largest of the three
absolute channel differences. -/
def getColorDifference (pix1 pix2 : Int) : Int :=
  match getRedGreenBlue pix1, getRedGreenBlue pix2 with
  | (red1, green1, blue1), (red2, green2, blue2) =>
    max (max |red1 - red2| |green1 - green2|) |blue1 - blue2|

/-! ## Grids -/

/-- Modelled from the spec: the class `Grid<int>` belongs to the collections
library, which is not part of the sources.  The spec describes a pixel grid as
a 2-D array of fixed dimensions (rows × columns) whose rows all have the same
length. -/
structure Grid where
  /-- The number of rows. -/
  numRows : Nat
  /-- The number of columns. -/
  numCols : Nat
  /-- The cells, row by row. -/
  rows : List (List Int)
deriving DecidableEq

namespace Grid

/-- The invariant of a grid: `numRows` rows of `numCols` cells each. -/
def WF (g : Grid) : Prop :=
  g.rows.length = g.numRows ∧ ∀ r ∈ g.rows, r.length = g.numCols

/-- The constructor `Grid<int> g(numRows, numCols)`: every cell holds the
default value `0`. -/
def create (numRows numCols : Nat) : Grid :=
  { numRows := numRows, numCols := numCols,
    rows := List.replicate numRows (List.replicate numCols 0) }

/-- The bounds test of the grid: `row` and `col` name a cell. -/
def inBounds (g : Grid) (row col : Int) : Bool :=
  decide (0 ≤ row) && decide (row < g.numRows) && decide (0 ≤ col) && decide (col < g.numCols)

/-- The content of the cell `(row, col)` of the storage. -/
def cell (g : Grid) (row col : Int) : Int :=
  (g.rows.getD row.toNat []).getD col.toNat 0

/-- Reading `g[row][col]`; `none` is the out-of-range error. -/
def get (g : Grid) (row col : Int) : Option Int :=
  if g.inBounds row col then some (g.cell row col) else none

/-- Writing `g[row][col] = value`; `none` is the out-of-range error. -/
def set (g : Grid) (row col : Int) (value : Int) : Option Grid :=
  if g.inBounds row col then
    some { g with
      rows := g.rows.set row.toNat ((g.rows.getD row.toNat []).set col.toNat value) }
  else
    none

end Grid

/-! ## Loops -/

/-- The loop `for (int i = 0; i < n; i++) body(i)` over a state: the bodies
run in the order `0, 1, …, n - 1`, and an error in one of them ends the
loop. -/
def forLoop {σ : Type} (body : Nat → σ → Option σ) : Nat → σ → Option σ
  | 0, s => some s
  | n + 1, s => (forLoop body n s).bind (body n)

/-! ## Edge detection -/

/-- The test `getColorDifference(g[row][col], g[i][j]) > threshold` of the
source, with its two grid reads. -/
def differs (g : Grid) (row col i j threshold : Int) : Option Bool := do
  let neighbour ← g.get row col
  let centre ← g.get i j
  pure (decide (getColorDifference neighbour centre > threshold))

/-- The short-circuit conjunction `gate && test`: the test, with its grid
reads, is evaluated only when the gate holds. -/
def guarded (gate : Bool) (test : Option Bool) : Option Bool :=
  if gate then test else some false

/-- The body of the two loops of `applyEdgeDetection`: the chain of eight
guarded neighbour tests, in the order and with the gates of the source, and
the assignment to `edgedGrid[i][j]`. -/
def edgeStep (originalGrid : Grid) (threshold : Int) (numRows numColumns : Int)
    (i j : Int) (edgedGrid : Grid) : Option Grid :=
  match guarded (decide (i > 0) && decide (j > 0))
      (differs originalGrid (i - 1) (j - 1) i j threshold) with
  | none => none
  | some true => edgedGrid.set i j BLACK
  | some false =>
  match guarded (decide (i > 0))
      (differs originalGrid (i - 1) j i j threshold) with
  | none => none
  | some true => edgedGrid.set i j BLACK
  | some false =>
  match guarded (decide (i > 0) && decide (j < numColumns - 1))
      (differs originalGrid (i - 1) (j + 1) i j threshold) with
  | none => none
  | some true => edgedGrid.set i j BLACK
  | some false =>
  match guarded (decide (j > 0))
      (differs originalGrid i (j - 1) i j threshold) with
  | none => none
  | some true => edgedGrid.set i j BLACK
  | some false =>
  match guarded (decide (i > 0) && decide (j < numColumns - 1))
      (differs originalGrid i (j + 1) i j threshold) with
  | none => none
  | some true => edgedGrid.set i j BLACK
  | some false =>
  match guarded (decide (i < numRows - 1) && decide (j > 0))
      (differs originalGrid (i + 1) (j - 1) i j threshold) with
  | none => none
  | some true => edgedGrid.set i j BLACK
  | some false =>
  match guarded (decide (i < numRows - 1))
      (differs originalGrid (i + 1) j i j threshold) with
  | none => none
  | some true => edgedGrid.set i j BLACK
  | some false =>
  match guarded (decide (i < numRows - 1) && decide (j < numColumns - 1))
      (differs originalGrid (i + 1) (j + 1) i j threshold) with
  | none => none
  | some true => edgedGrid.set i j BLACK
  | some false =>
  edgedGrid.set i j WHITE

/-- The function `applyEdgeDetection` of the source, after the prompt has
delivered `threshold`. -/
def applyEdgeDetection (originalGrid : Grid) (threshold : Int) : Option Grid :=
  let numRows := originalGrid.numRows
  let numColumns := originalGrid.numCols
  forLoop (fun i edgedGrid =>
    forLoop (fun j edgedGrid =>
      edgeStep originalGrid threshold numRows numColumns i j edgedGrid) numColumns edgedGrid)
    numRows (Grid.create numRows numColumns)

/-! ## Green screen -/

/-- The body of the two loops of `applyGreenScreen`: inside the placement
rectangle a sticker pixel far enough from green replaces the background
pixel. -/
def greenStep (originalGrid stickerGrid : Grid) (tolerance placeRow placeCol : Int)
    (i j : Int) (screenedGrid : Grid) : Option Grid :=
  let stickerNumRows : Int := stickerGrid.numRows
  let stickerNumCols : Int := stickerGrid.numCols
  if decide (placeRow ≤ i) && decide (i < placeRow + stickerNumRows) &&
      decide (placeCol ≤ j) && decide (j < placeCol + stickerNumCols) then do
    let pixel ← stickerGrid.get (i - placeRow) (j - placeCol)
    if getColorDifference pixel GREEN > tolerance then do
      let value ← stickerGrid.get (i - placeRow) (j - placeCol)
      screenedGrid.set i j value
    else do
      let value ← originalGrid.get i j
      screenedGrid.set i j value
  else do
    let value ← originalGrid.get i j
    screenedGrid.set i j value

/-- The function `applyGreenScreen` of the source, after the prompts have
delivered the sticker, the tolerance and the placement. -/
def applyGreenScreen (originalGrid stickerGrid : Grid) (tolerance placeRow placeCol : Int) :
    Option Grid :=
  let numRows := originalGrid.numRows
  let numColumns := originalGrid.numCols
  forLoop (fun i screenedGrid =>
    forLoop (fun j screenedGrid =>
      greenStep originalGrid stickerGrid tolerance placeRow placeCol i j screenedGrid)
      numColumns screenedGrid)
    numRows (Grid.create numRows numColumns)

/-! ## Scatter -/

/-- Modelled from the spec: `randomInteger` belongs to the random library,
which is not part of the sources.  The spec abstracts the generator as an
injected source with a `nextIntInRange(lo, hi)` capability; a raw value of
the source is mapped into the closed range `[low, high]`. -/
def randomInteger (low high : Int) (raw : Nat) : Int :=
  low + (raw : Int) % (high - low + 1)

/-- The rejection loop of `applyScatter` for the cell `(i, j)`: as long as the
coordinate is outside the grid, both its components are drawn again, the row
first.  The random source is the stream `source`, read from position `pos`
on; `fuel` bounds the number of redraws, and `none` means that the loop was
still running when the fuel ran out.  The result is the coordinate that left
the loop and the position reached in the stream. -/
def scatterLoop (source : Nat → Nat) (numRows numColumns : Int) (i j radius : Int) :
    Nat → Int → Int → Nat → Option (Int × Int × Nat)
  | 0, scatterRow, scatterColumn, pos =>
    if scatterRow < 0 ∨ scatterRow ≥ numRows ∨ scatterColumn < 0 ∨ scatterColumn ≥ numColumns then
      none
    else
      some (scatterRow, scatterColumn, pos)
  | fuel + 1, scatterRow, scatterColumn, pos =>
    if scatterRow < 0 ∨ scatterRow ≥ numRows ∨ scatterColumn < 0 ∨ scatterColumn ≥ numColumns then
      scatterLoop source numRows numColumns i j radius fuel
        (randomInteger (i - radius) (i + radius) (source pos))
        (randomInteger (j - radius) (j + radius) (source (pos + 1)))
        (pos + 2)
    else
      some (scatterRow, scatterColumn, pos)

/-- The body of the two loops of `applyScatter`; the state is the output grid
and the position in the random stream. -/
def scatterStep (originalGrid : Grid) (radius : Int) (source : Nat → Nat) (fuel : Nat)
    (numRows numColumns : Int) (i j : Int) (state : Grid × Nat) : Option (Grid × Nat) :=
  match scatterLoop source numRows numColumns i j radius fuel (-1) (-1) state.2 with
  | none => none
  | some (scatterRow, scatterColumn, pos) =>
    match originalGrid.get scatterRow scatterColumn with
    | none => none
    | some value =>
      match state.1.set i j value with
      | none => none
      | some scatteredGrid => some (scatteredGrid, pos)

/-- The function `applyScatter` of the source, after the prompt has delivered
`radius`; every rejection loop may redraw `fuel` times. -/
def applyScatter (originalGrid : Grid) (radius : Int) (source : Nat → Nat) (fuel : Nat) :
    Option Grid :=
  let numRows := originalGrid.numRows
  let numColumns := originalGrid.numCols
  (forLoop (fun i state =>
    forLoop (fun j state =>
      scatterStep originalGrid radius source fuel numRows numColumns i j state)
      numColumns state)
    numRows (Grid.create numRows numColumns, 0)).map Prod.fst

/-! ## Specification-side definitions -/

/-- The grid whose cell `(i, j)` holds `f i j`. -/
def Grid.tabulate (numRows numCols : Nat) (f : Nat → Nat → Int) : Grid :=
  { numRows := numRows, numCols := numCols,
    rows := (List.range numRows).map fun i => (List.range numCols).map fun j => f i j }

/-- The colour difference between the cells `(row, col)` and `(i, j)` of `g`
exceeds `threshold`. -/
def exceeds (g : Grid) (threshold : Int) (row col i j : Int) : Prop :=
  getColorDifference (g.cell row col) (g.cell i j) > threshold

instance (g : Grid) (threshold row col i j : Int) : Decidable (exceeds g threshold row col i j) := by
  unfold exceeds; infer_instance

/-- The colour that `edgeStep` assigns to the cell `(i, j)`: the eight tests
with the gates of the source. -/
def edgeColor (g : Grid) (threshold : Int) (i j : Nat) : Int :=
  let n : Int := g.numRows
  let m : Int := g.numCols
  let i : Int := i
  let j : Int := j
  if (i > 0 ∧ j > 0 ∧ exceeds g threshold (i - 1) (j - 1) i j) ∨
     (i > 0 ∧ exceeds g threshold (i - 1) j i j) ∨
     (i > 0 ∧ j < m - 1 ∧ exceeds g threshold (i - 1) (j + 1) i j) ∨
     (j > 0 ∧ exceeds g threshold i (j - 1) i j) ∨
     (i > 0 ∧ j < m - 1 ∧ exceeds g threshold i (j + 1) i j) ∨
     (i < n - 1 ∧ j > 0 ∧ exceeds g threshold (i + 1) (j - 1) i j) ∨
     (i < n - 1 ∧ exceeds g threshold (i + 1) j i j) ∨
     (i < n - 1 ∧ j < m - 1 ∧ exceeds g threshold (i + 1) (j + 1) i j)
  then BLACK else WHITE

/-- The colour that `greenStep` assigns to the cell `(i, j)`. -/
def greenColor (originalGrid stickerGrid : Grid) (tolerance placeRow placeCol : Int)
    (i j : Nat) : Int :=
  if placeRow ≤ i ∧ (i : Int) < placeRow + stickerGrid.numRows ∧
      placeCol ≤ j ∧ (j : Int) < placeCol + stickerGrid.numCols ∧
      getColorDifference (stickerGrid.cell (i - placeRow) (j - placeCol)) GREEN > tolerance
  then stickerGrid.cell (i - placeRow) (j - placeCol)
  else originalGrid.cell i j

/-- The 8-bit channel of a packed colour that starts at bit `shift`. -/
def channel (p : Int) (shift : Nat) : Int :=
  ((p.toNat >>> shift) &&& 0xFF : Nat)

/-- The colour distance in the spec's words: the Chebyshev distance
`max(|R1-R2|, |G1-G2|, |B1-B2|)` over the channels R = bits 16–23,
G = bits 8–15, B = bits 0–7. -/
def colorDistance (p1 p2 : Int) : Int :=
  max (max |channel p1 16 - channel p2 16| |channel p1 8 - channel p2 8|)
    |channel p1 0 - channel p2 0|

/-- The `k`-th pair of draws of the rejection loop for the cell `(i, j)` when
the stream is read from position `pos` on: the row, then the column. -/
def draw (source : Nat → Nat) (i j radius : Int) (pos k : Nat) : Int × Int :=
  (randomInteger (i - radius) (i + radius) (source (pos + 2 * k)),
   randomInteger (j - radius) (j + radius) (source (pos + 2 * k + 1)))

/-- The loop condition of the rejection loop: the coordinate is outside the
grid. -/
def outside (numRows numColumns : Int) (p : Int × Int) : Prop :=
  p.1 < 0 ∨ p.1 ≥ numRows ∨ p.2 < 0 ∨ p.2 ≥ numColumns

instance (numRows numColumns : Int) (p : Int × Int) : Decidable (outside numRows numColumns p) := by
  unfold outside; infer_instance

/-- The placement rectangle of the sticker contains the cell `(i, j)`. -/
def inSticker (stickerGrid : Grid) (placeRow placeCol : Int) (i j : Int) : Prop :=
  placeRow ≤ i ∧ i < placeRow + stickerGrid.numRows ∧
    placeCol ≤ j ∧ j < placeCol + stickerGrid.numCols

instance (stickerGrid : Grid) (placeRow placeCol i j : Int) :
    Decidable (inSticker stickerGrid placeRow placeCol i j) := by
  unfold inSticker; infer_instance

/-- The value `v` is the content of a source cell `(sr, sc)` that the
rejection loop for the cell `(i, j)` selects at some position of the stream,
and that lies in the window of radius `radius` around `(i, j)` and inside the
grid. -/
def sourceCell (source : Nat → Nat) (fuel : Nat) (g : Grid) (radius : Int) (i j : Nat)
    (v : Int) : Prop :=
  ∃ (sr sc : Int) (pos pos' : Nat),
    scatterLoop source g.numRows g.numCols i j radius fuel (-1) (-1) pos = some (sr, sc, pos') ∧
    i - radius ≤ sr ∧ sr ≤ i + radius ∧ j - radius ≤ sc ∧ sc ≤ j + radius ∧
    0 ≤ sr ∧ sr < g.numRows ∧ 0 ≤ sc ∧ sc < g.numCols ∧ g.get sr sc = some v

/-! ## Concrete grids -/

/-- A 2 × 2 grid, White except for the Black cell `(0, 1)`. -/
def blackTopRight : Grid :=
  { numRows := 2, numCols := 2, rows := [[WHITE, BLACK], [WHITE, WHITE]] }

/-- A 3 × 3 grid, White except for the Black cell `(0, 1)`. -/
def blackTopMiddle : Grid :=
  { numRows := 3, numCols := 3,
    rows := [[WHITE, BLACK, WHITE], [WHITE, WHITE, WHITE], [WHITE, WHITE, WHITE]] }

/-- A 2 × 2 grid with a White row above a Black row. -/
def whiteOverBlack : Grid :=
  { numRows := 2, numCols := 2, rows := [[WHITE, WHITE], [BLACK, BLACK]] }

/-- A 2 × 3 grid of one colour. -/
def uniformGrid : Grid :=
  { numRows := 2, numCols := 3, rows := [[0x336699, 0x336699, 0x336699],
    [0x336699, 0x336699, 0x336699]] }

/-- A 3 × 3 background. -/
def background : Grid :=
  { numRows := 3, numCols := 3, rows := [[1, 2, 3], [4, 5, 6], [7, 8, 9]] }

/-- A 2 × 2 sticker: two pixels of green backing, a red and a blue pixel. -/
def sticker : Grid :=
  { numRows := 2, numCols := 2, rows := [[GREEN, 0xFF0000], [0x0000FF, GREEN]] }

/-! ## Grids: reading and writing -/

theorem getD_set_self {α : Type} (l : List α) (i : Nat) (a d : α) (h : i < l.length) :
    (l.set i a).getD i d = a := by
  simp [List.getD_eq_getElem?_getD, List.getElem?_set, h]

theorem getD_set_ne {α : Type} (l : List α) {i k : Nat} (a d : α) (h : i ≠ k) :
    (l.set i a).getD k d = l.getD k d := by
  simp [List.getD_eq_getElem?_getD, List.getElem?_set, h]

namespace Grid

theorem inBounds_iff (g : Grid) (row col : Int) :
    g.inBounds row col = true ↔ 0 ≤ row ∧ row < g.numRows ∧ 0 ≤ col ∧ col < g.numCols := by
  simp [inBounds, and_assoc]

theorem inBounds_natCast (g : Grid) (i j : Nat) :
    g.inBounds i j = true ↔ i < g.numRows ∧ j < g.numCols := by
  simp [inBounds]

theorem get_of_inBounds {g : Grid} {row col : Int} (h : g.inBounds row col = true) :
    g.get row col = some (g.cell row col) := by
  simp [get, h]

theorem get_natCast {g : Grid} {i j : Nat} (hi : i < g.numRows) (hj : j < g.numCols) :
    g.get i j = some (g.cell i j) :=
  get_of_inBounds ((g.inBounds_natCast i j).2 ⟨hi, hj⟩)

theorem get_eq_none {g : Grid} {row col : Int} (h : g.inBounds row col = false) :
    g.get row col = none := by
  simp [get, h]

theorem create_wf (n m : Nat) : (create n m).WF := by
  constructor
  · simp [create]
  · intro r hr
    simp only [create] at hr
    rw [List.eq_of_mem_replicate hr]
    simp [create]

theorem tabulate_wf (n m : Nat) (f : Nat → Nat → Int) : (tabulate n m f).WF := by
  constructor
  · simp [tabulate]
  · intro r hr
    simp only [tabulate, List.mem_map] at hr
    obtain ⟨i, _, rfl⟩ := hr
    simp [tabulate]

theorem cell_tabulate {n m : Nat} (f : Nat → Nat → Int) {i j : Nat} (hi : i < n) (hj : j < m) :
    (tabulate n m f).cell i j = f i j := by
  simp [cell, tabulate, List.getD_eq_getElem?_getD, List.getElem?_map, List.getElem?_range, hi, hj]

theorem set_spec {g : Grid} (hg : g.WF) {i j : Nat} (hi : i < g.numRows) (hj : j < g.numCols)
    (v : Int) :
    ∃ g', g.set i j v = some g' ∧ g'.WF ∧ g'.numRows = g.numRows ∧ g'.numCols = g.numCols ∧
      g'.cell i j = v ∧
      ∀ i' j' : Nat, (i' ≠ i ∨ j' ≠ j) → g'.cell i' j' = g.cell i' j' := by
  obtain ⟨hlen, hrow⟩ := hg
  have hb : g.inBounds i j = true := (g.inBounds_natCast i j).2 ⟨hi, hj⟩
  have hil : i < g.rows.length := by omega
  have hri : (g.rows.getD i []).length = g.numCols := by
    rw [List.getD_eq_getElem?_getD, List.getElem?_eq_getElem hil]
    exact hrow _ (List.getElem_mem hil)
  refine ⟨{ g with rows := g.rows.set i ((g.rows.getD i []).set j v) }, ?_, ⟨?_, ?_⟩,
    rfl, rfl, ?_, ?_⟩
  · simp [set, hb]
  · simpa using hlen
  · intro r hr
    rcases List.mem_or_eq_of_mem_set hr with h | h
    · exact hrow r h
    · rw [h, List.length_set]; exact hri
  · have hjl : j < (g.rows.getD i []).length := by rw [hri]; exact hj
    simp only [cell, Int.toNat_natCast]
    rw [getD_set_self _ _ _ _ hil, getD_set_self _ _ _ _ hjl]
  · intro i' j' h
    simp only [cell, Int.toNat_natCast]
    by_cases hii : i = i'
    · subst hii
      have hj' : j ≠ j' := by
        rcases h with h | h
        · exact absurd rfl h
        · exact fun e => h e.symm
      rw [getD_set_self _ _ _ _ hil, getD_set_ne _ _ _ hj']
    · rw [getD_set_ne _ _ _ hii]

theorem ext_of_cells {g₁ g₂ : Grid} (h₁ : g₁.WF) (h₂ : g₂.WF)
    (hr : g₁.numRows = g₂.numRows) (hc : g₁.numCols = g₂.numCols)
    (h : ∀ i j : Nat, i < g₁.numRows → j < g₁.numCols → g₁.cell i j = g₂.cell i j) :
    g₁ = g₂ := by
  obtain ⟨n₁, m₁, rows₁⟩ := g₁
  obtain ⟨n₂, m₂, rows₂⟩ := g₂
  obtain ⟨hl₁, hw₁⟩ := h₁
  obtain ⟨hl₂, hw₂⟩ := h₂
  simp only at hr hc hl₁ hl₂ hw₁ hw₂ h
  subst hr hc
  congr 1
  apply List.ext_getElem (by omega)
  intro i hi₁ hi₂
  have e₁ : (rows₁[i]).length = m₁ := hw₁ _ (List.getElem_mem hi₁)
  have e₂ : (rows₂[i]).length = m₁ := hw₂ _ (List.getElem_mem hi₂)
  apply List.ext_getElem (by omega)
  intro j hj₁ hj₂
  have := h i j (by omega) (by omega)
  simpa [cell, List.getD_eq_getElem?_getD, List.getElem?_eq_getElem hi₁,
    List.getElem?_eq_getElem hi₂, List.getElem?_eq_getElem hj₁,
    List.getElem?_eq_getElem hj₂] using this

end Grid

/-! ## Loops -/

theorem forLoop_inv {σ : Type} (body : Nat → σ → Option σ) (P : Nat → σ → Prop) (n : Nat)
    (s₀ : σ) (h₀ : P 0 s₀)
    (hstep : ∀ k s, k < n → P k s → ∃ s', body k s = some s' ∧ P (k + 1) s') :
    ∃ s', forLoop body n s₀ = some s' ∧ P n s' := by
  induction n with
  | zero => exact ⟨s₀, rfl, h₀⟩
  | succ n ih =>
    obtain ⟨s₁, h₁, hP₁⟩ := ih fun k s hk hP => hstep k s (by omega) hP
    obtain ⟨s₂, h₂, hP₂⟩ := hstep n s₁ (by omega) hP₁
    exact ⟨s₂, by simp [forLoop, h₁, h₂], hP₂⟩

theorem forLoop_inv_of_some {σ : Type} (body : Nat → σ → Option σ) (P : Nat → σ → Prop)
    (n : Nat) (s₀ s' : σ) (h : forLoop body n s₀ = some s') (h₀ : P 0 s₀)
    (hstep : ∀ k s t, k < n → P k s → body k s = some t → P (k + 1) t) :
    P n s' := by
  induction n generalizing s' with
  | zero =>
    simp only [forLoop, Option.some.injEq] at h
    exact h ▸ h₀
  | succ n ih =>
    simp only [forLoop] at h
    cases h₁ : forLoop body n s₀ with
    | none => simp [h₁] at h
    | some s₁ =>
      rw [h₁] at h
      exact hstep n s₁ s' (by omega)
        (ih s₁ h₁ fun k s t hk hP ht => hstep k s t (by omega) hP ht) h

/-- Two nested loops over the cells of a fresh grid whose body assigns
`f i j` to the cell `(i, j)` build the grid `tabulate n m f`. -/
theorem fill_eq (n m : Nat) (f : Nat → Nat → Int) (body : Nat → Nat → Grid → Option Grid)
    (hbody : ∀ i j out, i < n → j < m → out.numRows = n → out.numCols = m →
      body i j out = out.set i j (f i j)) :
    forLoop (fun i out => forLoop (fun j out => body i j out) m out) n (Grid.create n m) =
      some (Grid.tabulate n m f) := by
  obtain ⟨out, hout, hwf, hr, hc, hcell⟩ := forLoop_inv
    (fun i out => forLoop (fun j out => body i j out) m out)
    (fun i out => out.WF ∧ out.numRows = n ∧ out.numCols = m ∧
      ∀ i' j' : Nat, i' < i → j' < m → out.cell i' j' = f i' j')
    n (Grid.create n m)
    ⟨Grid.create_wf n m, rfl, rfl, fun i' j' h => absurd h (Nat.not_lt_zero _)⟩
    (by
      intro i out hi ⟨hwf, hr, hc, hcell⟩
      obtain ⟨out', hout', hwf', hr', hc', hdone, hrow⟩ := forLoop_inv
        (fun j out => body i j out)
        (fun j out => out.WF ∧ out.numRows = n ∧ out.numCols = m ∧
          (∀ i' j' : Nat, i' < i → j' < m → out.cell i' j' = f i' j') ∧
          ∀ j' : Nat, j' < j → out.cell i j' = f i j')
        m out ⟨hwf, hr, hc, hcell, fun j' h => absurd h (Nat.not_lt_zero _)⟩
        (by
          intro j out hj ⟨hwf, hr, hc, hdone, hrow⟩
          obtain ⟨out', hset, hwf', hr', hc', hnew, hold⟩ :=
            Grid.set_spec hwf (hr ▸ hi) (hc ▸ hj) (f i j)
          refine ⟨out', (hbody i j out hi hj hr hc).trans hset, hwf', hr'.trans hr,
            hc'.trans hc, ?_, ?_⟩
          · intro i' j' hi' hj'
            rw [hold i' j' (Or.inl (by omega)), hdone i' j' hi' hj']
          · intro j' hj'
            by_cases e : j' = j
            · rw [e, hnew]
            · rw [hold i j' (Or.inr e), hrow j' (by omega)])
      refine ⟨out', hout', hwf', hr', hc', ?_⟩
      intro i' j' hi' hj'
      by_cases e : i' = i
      · rw [e]; exact hrow j' hj'
      · exact hdone i' j' (by omega) hj')
  rw [hout]
  congr 1
  apply Grid.ext_of_cells hwf (Grid.tabulate_wf n m f) hr hc
  intro i j hi hj
  rw [hcell i j (hr ▸ hi) (hc ▸ hj), Grid.cell_tabulate f (hr ▸ hi) (hc ▸ hj)]

/-! ## Edge detection: what the loops compute -/

theorem guarded_differs (g : Grid) (t : Int) {gate : Bool} {row col : Int} {i j : Nat}
    (hi : i < g.numRows) (hj : j < g.numCols)
    (hb : gate = true → 0 ≤ row ∧ row < g.numRows ∧ 0 ≤ col ∧ col < g.numCols) :
    guarded gate (differs g row col i j t) =
      some (gate && decide (exceeds g t row col i j)) := by
  cases gate with
  | false => rfl
  | true =>
    have h := (g.inBounds_iff row col).2 (hb rfl)
    simp [guarded, differs, Grid.get_of_inBounds h, Grid.get_natCast hi hj, exceeds]

theorem edgeStep_eq (g : Grid) (t : Int) {i j : Nat} (hi : i < g.numRows) (hj : j < g.numCols)
    (out : Grid) :
    edgeStep g t g.numRows g.numCols i j out = out.set i j (edgeColor g t i j) := by
  have hi' : (i : Int) < g.numRows := by exact_mod_cast hi
  have hj' : (j : Int) < g.numCols := by exact_mod_cast hj
  have hi0 : (0 : Int) ≤ i := Int.natCast_nonneg i
  have hj0 : (0 : Int) ≤ j := Int.natCast_nonneg j
  unfold edgeStep
  rw [guarded_differs g t hi hj (by simp; omega), guarded_differs g t hi hj (by simp; omega),
    guarded_differs g t hi hj (by simp; omega), guarded_differs g t hi hj (by simp; omega),
    guarded_differs g t hi hj (by simp; omega), guarded_differs g t hi hj (by simp; omega),
    guarded_differs g t hi hj (by simp; omega), guarded_differs g t hi hj (by simp; omega)]
  unfold edgeColor
  repeat' split
  all_goals try (simp_all; done)
  rename_i _ h1 _ h2 _ h3 _ h4 _ h5 _ h6 _ h7 _ h8
  simp only [Option.some.injEq, Bool.and_eq_false_imp, Bool.and_eq_true, decide_eq_true_eq,
    decide_eq_false_iff_not] at h1 h2 h3 h4 h5 h6 h7 h8
  rw [if_neg]
  rintro (⟨a, b, c⟩ | ⟨a, c⟩ | ⟨a, b, c⟩ | ⟨a, c⟩ | ⟨a, b, c⟩ | ⟨a, b, c⟩ | ⟨a, c⟩ | ⟨a, b, c⟩)
  · exact h1 ⟨a, b⟩ c
  · exact h2 a c
  · exact h3 ⟨a, b⟩ c
  · exact h4 a c
  · exact h5 ⟨a, b⟩ c
  · exact h6 ⟨a, b⟩ c
  · exact h7 a c
  · exact h8 ⟨a, b⟩ c

/-- The loops of `applyEdgeDetection` never leave the grid and build the grid
of the colours `edgeColor`. -/
theorem applyEdgeDetection_eq (g : Grid) (t : Int) :
    applyEdgeDetection g t = some (Grid.tabulate g.numRows g.numCols (edgeColor g t)) :=
  fill_eq g.numRows g.numCols (edgeColor g t)
    (fun i j out => edgeStep g t g.numRows g.numCols i j out)
    (fun _ _ out hi hj _ _ => edgeStep_eq g t hi hj out)

/-! ## Green screen: what the loops compute -/

theorem greenStep_eq (bg ov : Grid) (tol pr pc : Int) {i j : Nat}
    (hi : i < bg.numRows) (hj : j < bg.numCols) (out : Grid) :
    greenStep bg ov tol pr pc i j out = out.set i j (greenColor bg ov tol pr pc i j) := by
  unfold greenStep greenColor
  by_cases hrect : pr ≤ i ∧ (i : Int) < pr + ov.numRows ∧ pc ≤ j ∧ (j : Int) < pc + ov.numCols
  · obtain ⟨h1, h2, h3, h4⟩ := hrect
    have hb : ov.inBounds (i - pr) (j - pc) = true :=
      (ov.inBounds_iff _ _).2 ⟨by omega, by omega, by omega, by omega⟩
    by_cases hd : getColorDifference (ov.cell (i - pr) (j - pc)) GREEN > tol
    · simp [h1, h2, h3, h4, hd, Grid.get_of_inBounds hb]
    · simp [h1, h2, h3, h4, hd, Grid.get_of_inBounds hb, Grid.get_natCast hi hj]
  · have hcond : (decide (pr ≤ i) && decide ((i : Int) < pr + ov.numRows) &&
        decide (pc ≤ j) && decide ((j : Int) < pc + ov.numCols)) = false := by
      simp only [Bool.and_eq_false_iff, decide_eq_false_iff_not]
      tauto
    have hneg : ¬(pr ≤ i ∧ (i : Int) < pr + ov.numRows ∧ pc ≤ j ∧ (j : Int) < pc + ov.numCols ∧
        getColorDifference (ov.cell (i - pr) (j - pc)) GREEN > tol) :=
      fun h => hrect ⟨h.1, h.2.1, h.2.2.1, h.2.2.2.1⟩
    simp only [hcond, if_neg hneg, Grid.get_natCast hi hj]
    rfl

/-- The loops of `applyGreenScreen` never leave a grid and build the grid of
the colours `greenColor`. -/
theorem applyGreenScreen_eq (bg ov : Grid) (tol pr pc : Int) :
    applyGreenScreen bg ov tol pr pc =
      some (Grid.tabulate bg.numRows bg.numCols (greenColor bg ov tol pr pc)) :=
  fill_eq bg.numRows bg.numCols (greenColor bg ov tol pr pc)
    (fun i j out => greenStep bg ov tol pr pc i j out)
    (fun _ _ out hi hj _ _ => greenStep_eq bg ov tol pr pc hi hj out)

/-! ## Colour difference -/

theorem channel_eq (p : Int) (hp : 0 ≤ p) (k : Nat) : channel p k = p / 2 ^ k % 256 := by
  unfold channel
  have h := Nat.and_pow_two_sub_one_eq_mod (p.toNat >>> k) 8
  norm_num at h
  rw [h, Nat.shiftRight_eq_div_pow]
  push_cast
  rw [Int.toNat_of_nonneg hp]

theorem getRedGreenBlue_range (p : Int) :
    (0 ≤ (getRedGreenBlue p).1 ∧ (getRedGreenBlue p).1 ≤ 255) ∧
    (0 ≤ (getRedGreenBlue p).2.1 ∧ (getRedGreenBlue p).2.1 ≤ 255) ∧
    (0 ≤ (getRedGreenBlue p).2.2 ∧ (getRedGreenBlue p).2.2 ≤ 255) := by
  simp only [getRedGreenBlue]
  omega

theorem getColorDifference_self (p : Int) : getColorDifference p p = 0 := by
  simp [getColorDifference]

theorem getColorDifference_le (p q : Int) : getColorDifference p q ≤ 255 := by
  simp only [getColorDifference, getRedGreenBlue, max_le_iff, abs_le]
  omega

/-- C4: for 24-bit packed colours the source's `getColorDifference` is the
Chebyshev distance over the channels R = bits 16–23, G = bits 8–15 and
B = bits 0–7; it is 0 on equal colours and 255 between White and Black. -/
theorem getColorDifference_eq_colorDistance (p1 p2 : Int)
    (h1 : 0 ≤ p1 ∧ p1 < 2 ^ 24) (h2 : 0 ≤ p2 ∧ p2 < 2 ^ 24) :
    getColorDifference p1 p2 = colorDistance p1 p2 ∧
      getColorDifference p1 p1 = 0 ∧ getColorDifference WHITE BLACK = 255 := by
  refine ⟨?_, getColorDifference_self p1, by decide⟩
  simp only [getColorDifference, getRedGreenBlue, colorDistance, channel_eq p1 h1.1,
    channel_eq p2 h2.1]
  norm_num

/-- C4 at the colours `0x336699` and `0xFF8000`. -/
theorem getColorDifference_eq_colorDistance_witness :
    ((0 : Int) ≤ 0x336699 ∧ (0x336699 : Int) < 2 ^ 24) ∧
    ((0 : Int) ≤ 0xFF8000 ∧ (0xFF8000 : Int) < 2 ^ 24) ∧
    (getColorDifference 0x336699 0xFF8000 = colorDistance 0x336699 0xFF8000 ∧
      getColorDifference 0x336699 0x336699 = 0 ∧ getColorDifference WHITE BLACK = 255) :=
  ⟨by decide, by decide,
    getColorDifference_eq_colorDistance 0x336699 0xFF8000 (by decide) (by decide)⟩

/-! ## Edge detection -/

theorem tabulate_congr (n m : Nat) (f f' : Nat → Nat → Int)
    (h : ∀ i j : Nat, i < n → j < m → f i j = f' i j) :
    Grid.tabulate n m f = Grid.tabulate n m f' := by
  apply Grid.ext_of_cells (Grid.tabulate_wf n m f) (Grid.tabulate_wf n m f') rfl rfl
  intro i j hi hj
  have hi' : i < n := hi
  have hj' : j < m := hj
  rw [Grid.cell_tabulate f hi' hj', Grid.cell_tabulate f' hi' hj', h i j hi' hj']

theorem get_tabulate {n m : Nat} (f : Nat → Nat → Int) {i j : Nat} (hi : i < n) (hj : j < m) :
    (Grid.tabulate n m f).get i j = some (f i j) := by
  rw [Grid.get_natCast (g := Grid.tabulate n m f) hi hj, Grid.cell_tabulate f hi hj]

theorem cell_of_uniform {g : Grid} {c : Int}
    (hu : ∀ i j : Nat, i < g.numRows → j < g.numCols → g.get i j = some c) {row col : Int}
    (hr : 0 ≤ row ∧ row < g.numRows) (hc : 0 ≤ col ∧ col < g.numCols) :
    g.cell row col = c := by
  obtain ⟨i, rfl⟩ := Int.eq_ofNat_of_zero_le hr.1
  obtain ⟨j, rfl⟩ := Int.eq_ofNat_of_zero_le hc.1
  have hi : i < g.numRows := by exact_mod_cast hr.2
  have hj : j < g.numCols := by exact_mod_cast hc.2
  have h := hu i j hi hj
  rw [Grid.get_natCast hi hj] at h
  exact Option.some.inj h

theorem edgeColor_of_uniform {g : Grid} {c t : Int} (ht : 0 < t)
    (hu : ∀ i j : Nat, i < g.numRows → j < g.numCols → g.get i j = some c) {i j : Nat}
    (hi : i < g.numRows) (hj : j < g.numCols) :
    edgeColor g t i j = WHITE := by
  have hi' : (i : Int) < g.numRows := by exact_mod_cast hi
  have hj' : (j : Int) < g.numCols := by exact_mod_cast hj
  have hi0 : (0 : Int) ≤ i := Int.natCast_nonneg i
  have hj0 : (0 : Int) ≤ j := Int.natCast_nonneg j
  have key : ∀ row col : Int, 0 ≤ row ∧ row < g.numRows → 0 ≤ col ∧ col < g.numCols →
      ¬exceeds g t row col i j := by
    intro row col hr hc
    unfold exceeds
    rw [cell_of_uniform hu hr hc, cell_of_uniform hu ⟨hi0, hi'⟩ ⟨hj0, hj'⟩,
      getColorDifference_self]
    omega
  unfold edgeColor
  rw [if_neg]
  rintro (⟨a, b, c⟩ | ⟨a, c⟩ | ⟨a, b, c⟩ | ⟨a, c⟩ | ⟨a, b, c⟩ | ⟨a, b, c⟩ | ⟨a, c⟩ | ⟨a, b, c⟩)
  all_goals exact key _ _ (by omega) (by omega) c

theorem edgeColor_of_large (g : Grid) {t : Int} (ht : 255 ≤ t) (i j : Nat) :
    edgeColor g t i j = WHITE := by
  have key : ∀ row col : Int, ¬exceeds g t row col i j := by
    intro row col
    unfold exceeds
    have := getColorDifference_le (g.cell row col) (g.cell i j)
    omega
  unfold edgeColor
  rw [if_neg]
  rintro (⟨a, b, c⟩ | ⟨a, c⟩ | ⟨a, b, c⟩ | ⟨a, c⟩ | ⟨a, b, c⟩ | ⟨a, b, c⟩ | ⟨a, c⟩ | ⟨a, b, c⟩)
  all_goals exact key _ _ c

/-- C1: on the 2 × 2 grid that is White except for the Black cell `(0, 1)`,
with threshold 1, the cell `(0, 0)` has the in-bounds neighbour `(0, 1)` at
colour difference 255 > 1, and the output cell `(0, 0)` is White. -/
theorem applyEdgeDetection_top_row_east :
    blackTopRight.get 0 0 = some WHITE ∧ blackTopRight.get 0 1 = some BLACK ∧
      getColorDifference BLACK WHITE > 1 ∧
      applyEdgeDetection blackTopRight 1 =
        some ⟨2, 2, [[WHITE, BLACK], [BLACK, BLACK]]⟩ := by
  decide

/-- C5: on the 3 × 3 grid that is White except for the Black cell `(0, 1)`,
with threshold 1, the output cell `(0, 0)`, an in-bounds neighbour of the
Black cell, is White; the other in-bounds neighbours are Black. -/
theorem applyEdgeDetection_single_black_top_row :
    applyEdgeDetection blackTopMiddle 1 =
        some ⟨3, 3, [[WHITE, BLACK, BLACK], [BLACK, BLACK, BLACK], [WHITE, WHITE, WHITE]]⟩ ∧
      blackTopMiddle.get 0 1 = some BLACK ∧
      (applyEdgeDetection blackTopMiddle 1).bind (fun out => out.get 0 0) = some WHITE := by
  decide

/-- C6: edge detection of a grid whose cells all hold the same colour, with
a threshold `t > 0`, returns a grid of the same dimensions whose cells are
all White. -/
theorem applyEdgeDetection_uniform (g : Grid) (c t : Int) (ht : 0 < t)
    (hu : ∀ i : Nat, i < g.numRows → ∀ j : Nat, j < g.numCols → g.get i j = some c) :
    ∃ out, applyEdgeDetection g t = some out ∧
      out.numRows = g.numRows ∧ out.numCols = g.numCols ∧
      ∀ i j : Nat, i < g.numRows → j < g.numCols → out.get i j = some WHITE := by
  refine ⟨_, applyEdgeDetection_eq g t, rfl, rfl, ?_⟩
  intro i j hi hj
  rw [get_tabulate _ hi hj, edgeColor_of_uniform ht (fun i j hi hj => hu i hi j hj) hi hj]

/-- C6 at the 2 × 3 grid of the colour `0x336699`, with threshold 7. -/
theorem applyEdgeDetection_uniform_witness :
    (0 : Int) < 7 ∧
    (∀ i : Nat, i < uniformGrid.numRows → ∀ j : Nat, j < uniformGrid.numCols →
      uniformGrid.get i j = some 0x336699) ∧
    ∃ out, applyEdgeDetection uniformGrid 7 = some out ∧
      out.numRows = uniformGrid.numRows ∧ out.numCols = uniformGrid.numCols ∧
      ∀ i j : Nat, i < uniformGrid.numRows → j < uniformGrid.numCols →
        out.get i j = some WHITE :=
  ⟨by decide, by decide,
    applyEdgeDetection_uniform uniformGrid 0x336699 7 (by decide) (by decide)⟩

/-- C9, counterexample: with threshold 1 the grid with a White row above a
Black row is mapped to the all-Black grid, and the all-Black grid to the
all-White grid. -/
theorem applyEdgeDetection_not_idempotent :
    applyEdgeDetection whiteOverBlack 1 =
        some ⟨2, 2, [[BLACK, BLACK], [BLACK, BLACK]]⟩ ∧
      applyEdgeDetection ⟨2, 2, [[BLACK, BLACK], [BLACK, BLACK]]⟩ 1 =
        some ⟨2, 2, [[WHITE, WHITE], [WHITE, WHITE]]⟩ ∧
      ¬ ∀ (g : Grid) (t : Int), 0 < t → ∀ out, applyEdgeDetection g t = some out →
        applyEdgeDetection out t = some out := by
  refine ⟨by decide, by decide, fun h => ?_⟩
  have h₁ : applyEdgeDetection whiteOverBlack 1 =
      some ⟨2, 2, [[BLACK, BLACK], [BLACK, BLACK]]⟩ := by decide
  have h₂ := h whiteOverBlack 1 (by decide) _ h₁
  revert h₂
  decide

/-- C9, amended: for every grid and every threshold `t > 0` edge detection
returns a grid, and applied to that grid (same threshold) it returns it again
whenever that grid has no Black cell, which is the case for every threshold
`t ≥ 255`. -/
theorem applyEdgeDetection_idempotent_of_white (g : Grid) (t : Int) (ht : 0 < t) :
    ∃ out, applyEdgeDetection g t = some out ∧
      ((255 ≤ t ∨ ∀ i : Nat, i < g.numRows → ∀ j : Nat, j < g.numCols →
          out.get i j = some WHITE) →
        applyEdgeDetection out t = some out) := by
  refine ⟨_, applyEdgeDetection_eq g t, fun h => ?_⟩
  have hall : ∀ i j : Nat, i < g.numRows → j < g.numCols → edgeColor g t i j = WHITE := by
    intro i j hi hj
    rcases h with h | h
    · exact edgeColor_of_large g h i j
    · have := h i hi j hj
      rw [get_tabulate _ hi hj] at this
      exact Option.some.inj this
  have hu : ∀ i j : Nat, i < (Grid.tabulate g.numRows g.numCols (edgeColor g t)).numRows →
      j < (Grid.tabulate g.numRows g.numCols (edgeColor g t)).numCols →
      (Grid.tabulate g.numRows g.numCols (edgeColor g t)).get i j = some WHITE := by
    intro i j hi hj
    have hi' : i < g.numRows := hi
    have hj' : j < g.numCols := hj
    rw [get_tabulate _ hi' hj', hall i j hi' hj']
  rw [applyEdgeDetection_eq]
  congr 1
  apply tabulate_congr
  intro i j hi hj
  rw [edgeColor_of_uniform ht hu hi hj, hall i j hi hj]

/-- C9, amended, at the grid with a White row above a Black row, with
threshold 255. -/
theorem applyEdgeDetection_idempotent_of_white_witness :
    (0 : Int) < 255 ∧
    ∃ out, applyEdgeDetection whiteOverBlack 255 = some out ∧
      ((255 ≤ (255 : Int) ∨ ∀ i : Nat, i < whiteOverBlack.numRows →
          ∀ j : Nat, j < whiteOverBlack.numCols → out.get i j = some WHITE) →
        applyEdgeDetection out 255 = some out) :=
  ⟨by decide, applyEdgeDetection_idempotent_of_white whiteOverBlack 255 (by decide)⟩

/-! ## Green screen -/

/-- C2: for every background, sticker, tolerance `> 0` and placement, the
green screen returns a grid with the background's dimensions; a cell inside
the placement rectangle whose sticker pixel differs from green by more than
the tolerance holds that sticker pixel, and every other cell holds the
background pixel. -/
theorem applyGreenScreen_cells (bg ov : Grid) (tol pr pc : Int) (_htol : 0 < tol) :
    ∃ out, applyGreenScreen bg ov tol pr pc = some out ∧
      out.numRows = bg.numRows ∧ out.numCols = bg.numCols ∧
      ∀ i j : Nat, i < bg.numRows → j < bg.numCols →
        (out.get i j).isSome ∧
        (inSticker ov pr pc i j →
          ∀ pixel, ov.get (i - pr) (j - pc) = some pixel →
            getColorDifference pixel GREEN > tol → out.get i j = some pixel) ∧
        (¬(inSticker ov pr pc i j ∧
            ∃ pixel, ov.get (i - pr) (j - pc) = some pixel ∧
              getColorDifference pixel GREEN > tol) →
          out.get i j = bg.get i j) := by
  refine ⟨_, applyGreenScreen_eq bg ov tol pr pc, rfl, rfl, ?_⟩
  intro i j hi hj
  rw [get_tabulate _ hi hj]
  refine ⟨rfl, ?_, ?_⟩
  · rintro ⟨h1, h2, h3, h4⟩ pixel hpix hd
    have hb : ov.inBounds (i - pr) (j - pc) = true :=
      (ov.inBounds_iff _ _).2 ⟨by omega, by omega, by omega, by omega⟩
    rw [Grid.get_of_inBounds hb] at hpix
    have hcell := Option.some.inj hpix
    rw [← hcell] at hd
    rw [greenColor, if_pos ⟨h1, h2, h3, h4, hd⟩, hcell]
  · intro hneg
    rw [Grid.get_natCast hi hj, greenColor, if_neg]
    rintro ⟨h1, h2, h3, h4, hd⟩
    have hb : ov.inBounds (i - pr) (j - pc) = true :=
      (ov.inBounds_iff _ _).2 ⟨by omega, by omega, by omega, by omega⟩
    exact hneg ⟨⟨h1, h2, h3, h4⟩, _, Grid.get_of_inBounds hb, hd⟩

/-- C2 at a 3 × 3 background and a 2 × 2 sticker placed at `(1, 2)`, partly
beyond the right edge, with tolerance 10. -/
theorem applyGreenScreen_cells_witness :
    (0 : Int) < 10 ∧
    ∃ out, applyGreenScreen background sticker 10 1 2 = some out ∧
      out.numRows = background.numRows ∧ out.numCols = background.numCols ∧
      ∀ i j : Nat, i < background.numRows → j < background.numCols →
        (out.get i j).isSome ∧
        (inSticker sticker 1 2 i j →
          ∀ pixel, sticker.get (i - 1) (j - 2) = some pixel →
            getColorDifference pixel GREEN > 10 → out.get i j = some pixel) ∧
        (¬(inSticker sticker 1 2 i j ∧
            ∃ pixel, sticker.get (i - 1) (j - 2) = some pixel ∧
              getColorDifference pixel GREEN > 10) →
          out.get i j = background.get i j) :=
  ⟨by decide, applyGreenScreen_cells background sticker 10 1 2 (by decide)⟩

/-- C7: for every background, sticker, tolerance `> 0` and placement, the
green screen returns a grid, and the green screen of that grid with the same
sticker, tolerance and placement returns the same grid. -/
theorem applyGreenScreen_idempotent (bg ov : Grid) (tol pr pc : Int) (_htol : 0 < tol) :
    ∃ out, applyGreenScreen bg ov tol pr pc = some out ∧
      applyGreenScreen out ov tol pr pc = some out := by
  refine ⟨_, applyGreenScreen_eq bg ov tol pr pc, ?_⟩
  rw [applyGreenScreen_eq]
  congr 1
  apply tabulate_congr
  intro i j hi hj
  have hi' : i < bg.numRows := hi
  have hj' : j < bg.numCols := hj
  by_cases h : pr ≤ i ∧ (i : Int) < pr + ov.numRows ∧ pc ≤ j ∧ (j : Int) < pc + ov.numCols ∧
      getColorDifference (ov.cell (i - pr) (j - pc)) GREEN > tol
  · simp only [greenColor, if_pos h]
  · have e : greenColor bg ov tol pr pc i j = bg.cell i j := by
      simp only [greenColor, if_neg h]
    rw [e]
    simp only [greenColor, if_neg h]
    rw [Grid.cell_tabulate _ hi' hj', e]

/-- C7 at a 3 × 3 background and a 2 × 2 sticker placed at `(1, 1)`, with
tolerance 10. -/
theorem applyGreenScreen_idempotent_witness :
    (0 : Int) < 10 ∧
    ∃ out, applyGreenScreen background sticker 10 1 1 = some out ∧
      applyGreenScreen out sticker 10 1 1 = some out :=
  ⟨by decide, applyGreenScreen_idempotent background sticker 10 1 1 (by decide)⟩

/-- C8: for every background, sticker and integer placement the green screen
returns a grid of the background's dimensions, so that no read or write of
its loops leaves a grid: every background cell is readable, and for every
background cell inside the placement rectangle the sticker index
`(i - placeRow, j - placeCol)` is inside the sticker. -/
theorem applyGreenScreen_in_bounds (bg ov : Grid) (tol pr pc : Int) :
    (∃ out, applyGreenScreen bg ov tol pr pc = some out ∧
      out.numRows = bg.numRows ∧ out.numCols = bg.numCols) ∧
    ∀ i j : Nat, i < bg.numRows → j < bg.numCols →
      (bg.get i j).isSome ∧
      (∀ out : Grid, out.numRows = bg.numRows → out.numCols = bg.numCols →
        (out.set i j 0).isSome ∧ (greenStep bg ov tol pr pc i j out).isSome) ∧
      (inSticker ov pr pc i j →
        0 ≤ i - pr ∧ i - pr < ov.numRows ∧ 0 ≤ j - pc ∧ j - pc < ov.numCols ∧
        (ov.get (i - pr) (j - pc)).isSome) := by
  refine ⟨⟨_, applyGreenScreen_eq bg ov tol pr pc, rfl, rfl⟩, ?_⟩
  intro i j hi hj
  refine ⟨by rw [Grid.get_natCast hi hj]; rfl, ?_, ?_⟩
  · intro out hr hc
    have hb : out.inBounds i j = true := (out.inBounds_natCast i j).2 ⟨hr ▸ hi, hc ▸ hj⟩
    have hset : ∀ v, (out.set i j v).isSome := fun v => by simp [Grid.set, hb]
    exact ⟨hset 0, by rw [greenStep_eq bg ov tol pr pc hi hj]; exact hset _⟩
  · rintro ⟨h1, h2, h3, h4⟩
    have hb : ov.inBounds (i - pr) (j - pc) = true :=
      (ov.inBounds_iff _ _).2 ⟨by omega, by omega, by omega, by omega⟩
    refine ⟨by omega, by omega, by omega, by omega, ?_⟩
    rw [Grid.get_of_inBounds hb]; rfl

/-! ## Scatter -/

theorem randomInteger_range (low high : Int) (h : low ≤ high) (raw : Nat) :
    low ≤ randomInteger low high raw ∧ randomInteger low high raw ≤ high := by
  unfold randomInteger
  have h₁ := Int.emod_nonneg (raw : Int) (show high - low + 1 ≠ 0 by omega)
  have h₂ := Int.emod_lt_of_pos (raw : Int) (show 0 < high - low + 1 by omega)
  omega

theorem scatterLoop_inside (source : Nat → Nat) (n m i j r : Int) (fuel : Nat) (p : Int × Int)
    (pos : Nat) (h : ¬outside n m p) :
    scatterLoop source n m i j r fuel p.1 p.2 pos = some (p.1, p.2, pos) := by
  unfold outside at h
  cases fuel <;> simp only [scatterLoop, if_neg h]

theorem scatterLoop_outside (source : Nat → Nat) (n m i j r : Int) (fuel : Nat) (p : Int × Int)
    (pos : Nat) (h : outside n m p) :
    scatterLoop source n m i j r (fuel + 1) p.1 p.2 pos =
      scatterLoop source n m i j r fuel (draw source i j r pos 0).1 (draw source i j r pos 0).2
        (pos + 2) := by
  unfold outside at h
  simp only [scatterLoop, if_pos h, draw, Nat.mul_zero, Nat.add_zero]

theorem draw_window (source : Nat → Nat) (i j r : Int) (hr : 0 ≤ r) (pos k : Nat) :
    i - r ≤ (draw source i j r pos k).1 ∧ (draw source i j r pos k).1 ≤ i + r ∧
      j - r ≤ (draw source i j r pos k).2 ∧ (draw source i j r pos k).2 ≤ j + r := by
  have hrow := randomInteger_range (i - r) (i + r) (by omega) (source (pos + 2 * k))
  have hcol := randomInteger_range (j - r) (j + r) (by omega) (source (pos + 2 * k + 1))
  exact ⟨hrow.1, hrow.2, hcol.1, hcol.2⟩

theorem scatterLoop_some (source : Nat → Nat) (n m i j r : Int) (hr : 0 ≤ r) (fuel : Nat) :
    ∀ (p : Int × Int) (pos : Nat) (sr' sc' : Int) (pos' : Nat),
      scatterLoop source n m i j r fuel p.1 p.2 pos = some (sr', sc', pos') →
      ¬outside n m (sr', sc') ∧
        ((sr', sc') = p ∨
          (i - r ≤ sr' ∧ sr' ≤ i + r ∧ j - r ≤ sc' ∧ sc' ≤ j + r)) := by
  induction fuel with
  | zero =>
    intro p pos sr' sc' pos' h
    by_cases ho : outside n m p
    · unfold outside at ho
      simp [scatterLoop, if_pos ho] at h
    · rw [scatterLoop_inside source n m i j r 0 p pos ho] at h
      simp only [Option.some.injEq, Prod.mk.injEq] at h
      obtain ⟨h₁, h₂, -⟩ := h
      subst h₁ h₂
      exact ⟨ho, Or.inl rfl⟩
  | succ fuel ih =>
    intro p pos sr' sc' pos' h
    by_cases ho : outside n m p
    · rw [scatterLoop_outside source n m i j r fuel p pos ho] at h
      obtain ⟨hin, hfrom⟩ := ih _ _ _ _ _ h
      refine ⟨hin, Or.inr ?_⟩
      have hw := draw_window source i j r hr pos 0
      rcases hfrom with e | h'
      · rw [← e] at hw
        exact hw
      · exact h'
    · rw [scatterLoop_inside source n m i j r (fuel + 1) p pos ho] at h
      simp only [Option.some.injEq, Prod.mk.injEq] at h
      obtain ⟨h₁, h₂, -⟩ := h
      subst h₁ h₂
      exact ⟨ho, Or.inl rfl⟩

theorem draw_shift (source : Nat → Nat) (i j r : Int) (pos k : Nat) :
    draw source i j r (pos + 2) k = draw source i j r pos (k + 1) := by
  simp only [draw]
  rw [show pos + 2 + 2 * k = pos + 2 * (k + 1) by ring]

theorem scatterLoop_first (source : Nat → Nat) (n m i j r : Int) (k : Nat) :
    ∀ (fuel : Nat) (p : Int × Int) (pos : Nat), outside n m p →
      (∀ k', k' < k → outside n m (draw source i j r pos k')) →
      ¬outside n m (draw source i j r pos k) → k < fuel →
      scatterLoop source n m i j r fuel p.1 p.2 pos =
        some ((draw source i j r pos k).1, (draw source i j r pos k).2, pos + 2 * (k + 1)) := by
  induction k with
  | zero =>
    intro fuel p pos ho _ hin hk
    obtain ⟨fuel, rfl⟩ : ∃ f, fuel = f + 1 := ⟨fuel - 1, by omega⟩
    rw [scatterLoop_outside source n m i j r fuel p pos ho,
      scatterLoop_inside source n m i j r fuel _ _ hin]
  | succ k ih =>
    intro fuel p pos ho hout hin hk
    obtain ⟨fuel, rfl⟩ : ∃ f, fuel = f + 1 := ⟨fuel - 1, by omega⟩
    rw [scatterLoop_outside source n m i j r fuel p pos ho,
      ih fuel _ (pos + 2) (hout 0 (by omega))
        (fun k' hk' => by rw [draw_shift]; exact hout (k' + 1) (by omega))
        (by rw [draw_shift]; exact hin) (by omega),
      draw_shift]
    congr 3
    omega

theorem scatterStep_some {g : Grid} {r : Int} (hr : 0 ≤ r) {source : Nat → Nat} {fuel : Nat}
    {i j : Nat} {st st' : Grid × Nat}
    (h : scatterStep g r source fuel g.numRows g.numCols i j st = some st') :
    ∃ v, sourceCell source fuel g r i j v ∧ st.1.set i j v = some st'.1 := by
  unfold scatterStep at h
  split at h
  · exact absurd h (by simp)
  · rename_i sr sc pos' hloop
    split at h
    · exact absurd h (by simp)
    · rename_i v hget
      split at h
      · exact absurd h (by simp)
      · rename_i out' hset
        simp only [Option.some.injEq] at h
        subst h
        obtain ⟨hin, hfrom⟩ := scatterLoop_some source g.numRows g.numCols i j r hr fuel
          (-1, -1) st.2 sr sc pos' hloop
        have hw : (i : Int) - r ≤ sr ∧ sr ≤ i + r ∧ (j : Int) - r ≤ sc ∧ sc ≤ j + r := by
          rcases hfrom with e | hw
          · exfalso
            apply hin
            rw [e]
            exact Or.inl (by decide)
          · exact hw
        unfold outside at hin
        simp only at hin
        exact ⟨v, ⟨sr, sc, st.2, pos', hloop, hw.1, hw.2.1, hw.2.2.1, hw.2.2.2,
          by omega, by omega, by omega, by omega, hget⟩, hset⟩

theorem randomInteger_centre (c r : Int) (hr : 0 ≤ r) :
    randomInteger (c - r) (c + r) r.toNat = c := by
  unfold randomInteger
  rw [Int.toNat_of_nonneg hr, Int.emod_eq_of_lt hr (by omega)]
  omega

/-- On the constant stream of the value `radius` every rejection loop draws
its own cell first, so scatter returns a grid with a single redraw per
cell. -/
theorem applyScatter_returns (g : Grid) (r : Int) (hr : 0 ≤ r) :
    ∃ out, applyScatter g r (fun _ => r.toNat) 1 = some out := by
  obtain ⟨st, hst, -⟩ := forLoop_inv
    (fun (i : Nat) (state : Grid × Nat) => forLoop (fun (j : Nat) (state : Grid × Nat) =>
      scatterStep g r (fun _ => r.toNat) 1 g.numRows g.numCols i j state) g.numCols state)
    (fun _ st => st.1.WF ∧ st.1.numRows = g.numRows ∧ st.1.numCols = g.numCols)
    g.numRows (Grid.create g.numRows g.numCols, 0) ⟨Grid.create_wf _ _, rfl, rfl⟩
    (by
      intro i s hi hs
      exact forLoop_inv
        (fun (j : Nat) (state : Grid × Nat) =>
          scatterStep g r (fun _ => r.toNat) 1 g.numRows g.numCols i j state)
        (fun _ st => st.1.WF ∧ st.1.numRows = g.numRows ∧ st.1.numCols = g.numCols)
        g.numCols s hs
        (by
          intro j s hj ⟨hwf, hrows, hcols⟩
          have hd : draw (fun _ => r.toNat) i j r s.2 0 = ((i : Int), (j : Int)) := by
            simp only [draw, randomInteger_centre _ r hr]
          have hin : ¬outside g.numRows g.numCols (draw (fun _ => r.toNat) i j r s.2 0) := by
            rw [hd]
            unfold outside
            simp only
            have hi' : (i : Int) < g.numRows := by exact_mod_cast hi
            have hj' : (j : Int) < g.numCols := by exact_mod_cast hj
            omega
          have hloop := scatterLoop_first (fun _ => r.toNat) g.numRows g.numCols i j r 0 1
            (-1, -1) s.2 (Or.inl (by decide)) (fun k' h => absurd h (Nat.not_lt_zero _)) hin
            (by decide)
          rw [hd] at hloop
          obtain ⟨out', hset, hwf', hr', hc', -, -⟩ :=
            Grid.set_spec hwf (hrows ▸ hi) (hcols ▸ hj) (g.cell i j)
          refine ⟨(out', s.2 + 2 * (0 + 1)), ?_, hwf', hr'.trans hrows, hc'.trans hcols⟩
          simp only [scatterStep, hloop, Grid.get_natCast hi hj, hset]))
  exact ⟨st.1, by simp only [applyScatter, hst, Option.map_some']⟩

/-- C3: when scatter with a radius in `[1, 100]` returns a grid, that grid has
the input's dimensions, and every cell `(i, j)` holds the content of a source
cell `(sr, sc)` selected by the rejection loop of `(i, j)`, which lies in the
window `[i - r, i + r] × [j - r, j + r]` and inside the grid.  For every grid
and radius there is a stream on which scatter returns a grid. -/
theorem applyScatter_source_cells (g : Grid) (r : Int) (hr : 1 ≤ r ∧ r ≤ 100)
    (source : Nat → Nat) (fuel : Nat) :
    (∀ out, applyScatter g r source fuel = some out →
      out.numRows = g.numRows ∧ out.numCols = g.numCols ∧
      ∀ i j : Nat, i < g.numRows → j < g.numCols →
        ∃ (sr sc : Int) (pos pos' : Nat) (v : Int),
          scatterLoop source g.numRows g.numCols i j r fuel (-1) (-1) pos =
            some (sr, sc, pos') ∧
          i - r ≤ sr ∧ sr ≤ i + r ∧ j - r ≤ sc ∧ sc ≤ j + r ∧
          0 ≤ sr ∧ sr < g.numRows ∧ 0 ≤ sc ∧ sc < g.numCols ∧
          g.get sr sc = some v ∧ out.get i j = some v) ∧
    ∃ (source' : Nat → Nat) (fuel' : Nat) (out : Grid),
      applyScatter g r source' fuel' = some out := by
  have hr0 : 0 ≤ r := by omega
  refine ⟨?_, ?_⟩
  swap
  · obtain ⟨out, hout⟩ := applyScatter_returns g r hr0
    exact ⟨_, _, out, hout⟩
  intro out h
  simp only [applyScatter, Option.map_eq_some'] at h
  obtain ⟨st, hst, rfl⟩ := h
  have key := forLoop_inv_of_some
    (fun (i : Nat) (state : Grid × Nat) => forLoop (fun (j : Nat) (state : Grid × Nat) =>
      scatterStep g r source fuel g.numRows g.numCols i j state) g.numCols state)
    (fun i st => st.1.WF ∧ st.1.numRows = g.numRows ∧ st.1.numCols = g.numCols ∧
      ∀ i' j' : Nat, i' < i → j' < g.numCols →
        sourceCell source fuel g r i' j' (st.1.cell i' j'))
    g.numRows (Grid.create g.numRows g.numCols, 0) st hst
    ⟨Grid.create_wf _ _, rfl, rfl, fun i' j' h => absurd h (Nat.not_lt_zero _)⟩
    (by
      intro i s t hi ⟨hwf, hrows, hcols, hcell⟩ ht
      have inner := forLoop_inv_of_some
        (fun (j : Nat) (state : Grid × Nat) =>
          scatterStep g r source fuel g.numRows g.numCols i j state)
        (fun j st => st.1.WF ∧ st.1.numRows = g.numRows ∧ st.1.numCols = g.numCols ∧
          (∀ i' j' : Nat, i' < i → j' < g.numCols →
            sourceCell source fuel g r i' j' (st.1.cell i' j')) ∧
          ∀ j' : Nat, j' < j → sourceCell source fuel g r i j' (st.1.cell i j'))
        g.numCols s t ht ⟨hwf, hrows, hcols, hcell, fun j' h => absurd h (Nat.not_lt_zero _)⟩
        (by
          intro j s t hj ⟨hwf, hrows, hcols, hdone, hrow⟩ ht
          obtain ⟨v, hv, hset⟩ := scatterStep_some hr0 ht
          obtain ⟨out', hset', hwf', hr', hc', hnew, hold⟩ :=
            Grid.set_spec hwf (hrows ▸ hi) (hcols ▸ hj) v
          rw [hset] at hset'
          have e : t.1 = out' := Option.some.inj hset'
          rw [e]
          refine ⟨hwf', hr'.trans hrows, hc'.trans hcols, ?_, ?_⟩
          · intro i' j' hi' hj'
            rw [hold i' j' (Or.inl (by omega))]
            exact hdone i' j' hi' hj'
          · intro j' hj'
            by_cases e : j' = j
            · rw [e, hnew]; exact hv
            · rw [hold i j' (Or.inr e)]
              exact hrow j' (by omega))
      obtain ⟨hwf', hr', hc', hdone, hrow⟩ := inner
      refine ⟨hwf', hr', hc', ?_⟩
      intro i' j' hi' hj'
      by_cases e : i' = i
      · rw [e]; exact hrow j' hj'
      · exact hdone i' j' (by omega) hj')
  obtain ⟨-, hrows, hcols, hcell⟩ := key
  refine ⟨hrows, hcols, ?_⟩
  intro i j hi hj
  obtain ⟨sr, sc, pos, pos', hloop, h1, h2, h3, h4, h5, h6, h7, h8, hget⟩ := hcell i j hi hj
  exact ⟨sr, sc, pos, pos', _, hloop, h1, h2, h3, h4, h5, h6, h7, h8, hget,
    Grid.get_natCast (hrows ▸ hi) (hcols ▸ hj)⟩

/-- C3 at a 3 × 3 grid with radius 1, the stream `0, 1, 2, …` and fuel 3,
where scatter returns a grid. -/
theorem applyScatter_source_cells_witness :
    ((1 : Int) ≤ 1 ∧ (1 : Int) ≤ 100) ∧
    applyScatter background 1 (fun n => n) 3 = some ⟨3, 3, [[2, 4, 5], [5, 2, 8], [8, 5, 6]]⟩ ∧
    ((∀ out, applyScatter background 1 (fun n => n) 3 = some out →
      out.numRows = background.numRows ∧ out.numCols = background.numCols ∧
      ∀ i j : Nat, i < background.numRows → j < background.numCols →
        ∃ (sr sc : Int) (pos pos' : Nat) (v : Int),
          scatterLoop (fun n => n) background.numRows background.numCols i j 1 3 (-1) (-1) pos =
            some (sr, sc, pos') ∧
          i - 1 ≤ sr ∧ sr ≤ i + 1 ∧ j - 1 ≤ sc ∧ sc ≤ j + 1 ∧
          0 ≤ sr ∧ sr < background.numRows ∧ 0 ≤ sc ∧ sc < background.numCols ∧
          background.get sr sc = some v ∧ out.get i j = some v) ∧
    ∃ (source' : Nat → Nat) (fuel' : Nat) (out : Grid),
      applyScatter background 1 source' fuel' = some out) :=
  ⟨by decide, by decide,
    applyScatter_source_cells background 1 (by decide) (fun n => n) 3⟩

/-- C10: for a cell `(i, j)` of a grid and a radius `r ≥ 1`, the window of
the cell contains an in-bounds coordinate (the cell itself is a possible
draw), and for every stream in which some pair of draws is in bounds there
is a first such pair `k`: the pairs before it are out of bounds, and with
any fuel above `k` the rejection loop ends on exactly that pair, having read
`2 (k + 1)` values of the stream. -/
theorem scatterLoop_first_in_bounds (g : Grid) (i j : Nat) (hi : i < g.numRows)
    (hj : j < g.numCols) (r : Int) (hr : 1 ≤ r) (source : Nat → Nat) (pos : Nat) :
    (¬outside g.numRows g.numCols ((i : Int), (j : Int)) ∧
      ∃ a b : Nat, randomInteger (i - r) (i + r) a = i ∧ randomInteger (j - r) (j + r) b = j) ∧
    ((∃ k, ¬outside g.numRows g.numCols (draw source i j r pos k)) →
      ∃ k, ¬outside g.numRows g.numCols (draw source i j r pos k) ∧
        (∀ k', k' < k → outside g.numRows g.numCols (draw source i j r pos k')) ∧
        ∀ fuel, k < fuel →
          scatterLoop source g.numRows g.numCols i j r fuel (-1) (-1) pos =
            some ((draw source i j r pos k).1, (draw source i j r pos k).2,
              pos + 2 * (k + 1))) := by
  have hi' : (i : Int) < g.numRows := by exact_mod_cast hi
  have hj' : (j : Int) < g.numCols := by exact_mod_cast hj
  refine ⟨⟨?_, r.toNat, r.toNat, ?_, ?_⟩, ?_⟩
  · unfold outside
    simp only
    omega
  · unfold randomInteger
    rw [Int.toNat_of_nonneg (by omega), Int.emod_eq_of_lt (by omega) (by omega)]
    omega
  · unfold randomInteger
    rw [Int.toNat_of_nonneg (by omega), Int.emod_eq_of_lt (by omega) (by omega)]
    omega
  · intro hex
    refine ⟨Nat.find hex, Nat.find_spec hex, ?_, ?_⟩
    · intro k' hk'
      exact not_not.1 (Nat.find_min hex hk')
    · intro fuel hk
      exact scatterLoop_first source g.numRows g.numCols i j r (Nat.find hex) fuel (-1, -1) pos
        (Or.inl (by decide)) (fun k' hk' => not_not.1 (Nat.find_min hex hk'))
        (Nat.find_spec hex) hk

/-- C10 at the cell `(0, 0)` of a 3 × 3 grid with radius 1 and the stream
`0, 1, 2, …` read from its start: the first two pairs of draws, `(-1, 0)` and
`(1, -1)`, are rejected and the third, `(0, 1)`, is selected. -/
theorem scatterLoop_first_in_bounds_witness :
    (0 < background.numRows ∧ 0 < background.numCols ∧ (1 : Int) ≤ 1) ∧
    scatterLoop (fun n => n) background.numRows background.numCols 0 0 1 3 (-1) (-1) 0 =
      some (0, 1, 6) ∧
    ((¬outside background.numRows background.numCols (((0 : Nat) : Int), ((0 : Nat) : Int)) ∧
      ∃ a b : Nat, randomInteger ((0 : Nat) - 1) ((0 : Nat) + 1) a = (0 : Nat) ∧
        randomInteger ((0 : Nat) - 1) ((0 : Nat) + 1) b = (0 : Nat)) ∧
    ((∃ k, ¬outside background.numRows background.numCols
        (draw (fun n => n) (0 : Nat) (0 : Nat) 1 0 k)) →
      ∃ k, ¬outside background.numRows background.numCols
          (draw (fun n => n) (0 : Nat) (0 : Nat) 1 0 k) ∧
        (∀ k', k' < k → outside background.numRows background.numCols
          (draw (fun n => n) (0 : Nat) (0 : Nat) 1 0 k')) ∧
        ∀ fuel, k < fuel →
          scatterLoop (fun n => n) background.numRows background.numCols (0 : Nat) (0 : Nat) 1
              fuel (-1) (-1) 0 =
            some ((draw (fun n => n) (0 : Nat) (0 : Nat) 1 0 k).1,
              (draw (fun n => n) (0 : Nat) (0 : Nat) 1 0 k).2, 0 + 2 * (k + 1)))) :=
  ⟨by decide, by decide,
    scatterLoop_first_in_bounds background 0 0 (by decide) (by decide) 1 (by decide)
      (fun n => n) 0⟩

end Fauxtoshop
